import Mathlib

/-!
Verification of the SSDFS page/buffer management layer
(fs/ssdfs/ssdfs_inline.h and fs/ssdfs/page_vector.h).

Shallow embedding conventions:
* Byte buffers and page contents are `List Nat` with each element a byte
  value; `u32` quantities are `Nat` with wraparound written explicitly as
  `% U32` where the C computation is 32-bit.
* The kernel's little-endian conversion helpers (`cpu_to_le32`,
  `le16_to_cpu`, ...) are identities in this model (little-endian host).
* `#ifdef CONFIG_SSDFS_DEBUG` blocks are modelled by an explicit `dbg : Bool`
  parameter where the guarded code affects behaviour; the leak-accounting
  counters (`CONFIG_SSDFS_MEMORY_LEAKS_ACCOUNTING`) are modelled in their
  enabled configuration, since the claims about counters concern that build.
* Error returns are the C `errno` values as negative `Int`s:
  `-E2BIG = -7`, `-ENOMEM = -12`, `-EINVAL = -22`, `-ERANGE = -34`.
* Functions that mutate their arguments in C return the updated values.
-/

/-- Two to the thirty-second power: the modulus of `u32` arithmetic. -/
def U32 : Nat := 4294967296

/-- The semantics of `memcpy((u8 *)dst + dst_off, (u8 *)src + src_off, n)`
on value-level byte buffers. -/
def memcpyBytes (dst : List Nat) (dst_off : Nat)
    (src : List Nat) (src_off n : Nat) : List Nat :=
  dst.take dst_off ++ (src.drop src_off).take n ++ dst.drop (dst_off + n)

/-- The semantics of `memset` of `n` copies of the low byte of `value`
starting at `dst_off`. -/
def memsetBytes (dst : List Nat) (dst_off value n : Nat) : List Nat :=
  dst.take dst_off ++ List.replicate n (value % 256) ++ dst.drop (dst_off + n)

/-- Embedding of `ssdfs_memcpy` (ssdfs_inline.h:987). `dbg` is
`CONFIG_SSDFS_DEBUG`; the range checks are inside the `#ifdef` block in the
source, so they only run when `dbg = true`. Offsets are `u32`, hence the
sums are reduced `% U32`. Returns the `int` result and the destination. -/
def ssdfs_memcpy (dbg : Bool) (dst : List Nat) (dst_off dst_size : Nat)
    (src : List Nat) (src_off src_size copy_size : Nat) : Int × List Nat :=
  if dbg then
    if (src_off + copy_size) % U32 > src_size then ((-34 : Int), dst)
    else if (dst_off + copy_size) % U32 > dst_size then ((-34 : Int), dst)
    else (0, memcpyBytes dst dst_off src src_off copy_size)
  else (0, memcpyBytes dst dst_off src src_off copy_size)

/-- Embedding of `ssdfs_memcpy_page` (ssdfs_inline.h:1019): identical check
structure, copying between the contents of two pages. -/
def ssdfs_memcpy_page (dbg : Bool) (dst_page : List Nat) (dst_off dst_size : Nat)
    (src_page : List Nat) (src_off src_size copy_size : Nat) : Int × List Nat :=
  if dbg then
    if (src_off + copy_size) % U32 > src_size then ((-34 : Int), dst_page)
    else if (dst_off + copy_size) % U32 > dst_size then ((-34 : Int), dst_page)
    else (0, memcpyBytes dst_page dst_off src_page src_off copy_size)
  else (0, memcpyBytes dst_page dst_off src_page src_off copy_size)

/-- Embedding of `ssdfs_memcpy_from_page` (ssdfs_inline.h:1051). -/
def ssdfs_memcpy_from_page (dbg : Bool) (dst : List Nat) (dst_off dst_size : Nat)
    (page : List Nat) (src_off src_size copy_size : Nat) : Int × List Nat :=
  if dbg then
    if (src_off + copy_size) % U32 > src_size then ((-34 : Int), dst)
    else if (dst_off + copy_size) % U32 > dst_size then ((-34 : Int), dst)
    else (0, memcpyBytes dst dst_off page src_off copy_size)
  else (0, memcpyBytes dst dst_off page src_off copy_size)

/-- Embedding of `ssdfs_memcpy_to_page` (ssdfs_inline.h:1084). -/
def ssdfs_memcpy_to_page (dbg : Bool) (page : List Nat) (dst_off dst_size : Nat)
    (src : List Nat) (src_off src_size copy_size : Nat) : Int × List Nat :=
  if dbg then
    if (src_off + copy_size) % U32 > src_size then ((-34 : Int), page)
    else if (dst_off + copy_size) % U32 > dst_size then ((-34 : Int), page)
    else (0, memcpyBytes page dst_off src src_off copy_size)
  else (0, memcpyBytes page dst_off src src_off copy_size)

/-- Embedding of `ssdfs_memmove` (ssdfs_inline.h:1115). On value-level
buffers the overlap-safe `memmove` has the same result as `memcpy`. -/
def ssdfs_memmove (dbg : Bool) (dst : List Nat) (dst_off dst_size : Nat)
    (src : List Nat) (src_off src_size move_size : Nat) : Int × List Nat :=
  if dbg then
    if (src_off + move_size) % U32 > src_size then ((-34 : Int), dst)
    else if (dst_off + move_size) % U32 > dst_size then ((-34 : Int), dst)
    else (0, memcpyBytes dst dst_off src src_off move_size)
  else (0, memcpyBytes dst dst_off src src_off move_size)

/-- Embedding of `ssdfs_memmove_page` (ssdfs_inline.h:1147); the body calls
`memcpy_page`. -/
def ssdfs_memmove_page (dbg : Bool) (dst_page : List Nat) (dst_off dst_size : Nat)
    (src_page : List Nat) (src_off src_size move_size : Nat) : Int × List Nat :=
  if dbg then
    if (src_off + move_size) % U32 > src_size then ((-34 : Int), dst_page)
    else if (dst_off + move_size) % U32 > dst_size then ((-34 : Int), dst_page)
    else (0, memcpyBytes dst_page dst_off src_page src_off move_size)
  else (0, memcpyBytes dst_page dst_off src_page src_off move_size)

/-- Embedding of `ssdfs_memset_page` (ssdfs_inline.h:1179): only a
destination-range check exists, and only under `CONFIG_SSDFS_DEBUG`. -/
def ssdfs_memset_page (dbg : Bool) (page : List Nat) (dst_off dst_size : Nat)
    (value set_size : Nat) : Int × List Nat :=
  if dbg then
    if (dst_off + set_size) % U32 > dst_size then ((-34 : Int), page)
    else (0, memsetBytes page dst_off value set_size)
  else (0, memsetBytes page dst_off value set_size)

/-- Embedding of `ssdfs_memzero_page` (ssdfs_inline.h:1201):
`memzero_page` is a fill with the byte 0. -/
def ssdfs_memzero_page (dbg : Bool) (page : List Nat) (dst_off dst_size : Nat)
    (set_size : Nat) : Int × List Nat :=
  if dbg then
    if (dst_off + set_size) % U32 > dst_size then ((-34 : Int), page)
    else (0, memsetBytes page dst_off 0 set_size)
  else (0, memsetBytes page dst_off 0 set_size)

/-- Helper: an error-checked branch returns the error value as soon as one
of the two range conditions holds. -/
theorem if_range_err {α : Type} {A B : Prop} [Decidable A] [Decidable B]
    (e other : α) (h : A ∨ B) :
    (if A then e else if B then e else other) = e := by
  rcases h with h | h
  · rw [if_pos h]
  · by_cases hA : A
    · rw [if_pos hA]
    · rw [if_neg hA, if_pos h]

/-- Claim C1, counterexample: the bound checks of the copy/move/fill
wrappers sit inside `#ifdef CONFIG_SSDFS_DEBUG` (ssdfs_inline.h:992-1013),
so in a non-debug build configuration an out-of-range copy is NOT rejected:
here `src_off + copy_size = 2 > 1 = src_size`, yet the call returns 0
(success, not `-ERANGE`) and overwrites the destination `[9, 9]` with
`[1, 2]`. -/
theorem ssdfs_memcpy_release_build_unchecked :
    0 + 2 > 1
    ∧ ssdfs_memcpy false [9, 9] 0 2 [1, 2] 0 1 2 = (0, [1, 2]) :=
  ⟨by decide, by decide⟩

/-- Claim C1 (amended): when `CONFIG_SSDFS_DEBUG` is enabled, every bounded
copy/move/fill operation with `src_off + length > src_capacity` or
`dst_off + length > dst_capacity` (sums not wrapping past 2^32) returns
`-ERANGE` with the destination unmodified, the check preceding any byte
write; without `CONFIG_SSDFS_DEBUG` the check is compiled out and the raw
copy proceeds unconditionally. -/
theorem ssdfs_mem_ops_range_check_debug_only
    (dst src : List Nat) (dst_off dst_size src_off src_size n v : Nat)
    (hs : src_off + n < U32) (hd : dst_off + n < U32) :
    (src_off + n > src_size ∨ dst_off + n > dst_size →
      ssdfs_memcpy true dst dst_off dst_size src src_off src_size n
          = ((-34 : Int), dst)
      ∧ ssdfs_memcpy_page true dst dst_off dst_size src src_off src_size n
          = ((-34 : Int), dst)
      ∧ ssdfs_memcpy_from_page true dst dst_off dst_size src src_off src_size n
          = ((-34 : Int), dst)
      ∧ ssdfs_memcpy_to_page true dst dst_off dst_size src src_off src_size n
          = ((-34 : Int), dst)
      ∧ ssdfs_memmove true dst dst_off dst_size src src_off src_size n
          = ((-34 : Int), dst)
      ∧ ssdfs_memmove_page true dst dst_off dst_size src src_off src_size n
          = ((-34 : Int), dst))
    ∧ (dst_off + n > dst_size →
      ssdfs_memset_page true dst dst_off dst_size v n = ((-34 : Int), dst)
      ∧ ssdfs_memzero_page true dst dst_off dst_size n = ((-34 : Int), dst))
    ∧ ssdfs_memcpy false dst dst_off dst_size src src_off src_size n
        = (0, memcpyBytes dst dst_off src src_off n) := by
  have hs' : (src_off + n) % U32 = src_off + n := Nat.mod_eq_of_lt hs
  have hd' : (dst_off + n) % U32 = dst_off + n := Nat.mod_eq_of_lt hd
  refine ⟨fun h => ?_, fun h => ?_, rfl⟩
  · have h' : (src_off + n) % U32 > src_size ∨ (dst_off + n) % U32 > dst_size := by
      rw [hs', hd']; exact h
    exact ⟨if_range_err _ _ h', if_range_err _ _ h', if_range_err _ _ h',
           if_range_err _ _ h', if_range_err _ _ h', if_range_err _ _ h'⟩
  · have h' : (dst_off + n) % U32 > dst_size := by rw [hd']; exact h
    constructor
    · show (if (dst_off + n) % U32 > dst_size then _ else _) = _
      rw [if_pos h']
    · show (if (dst_off + n) % U32 > dst_size then _ else _) = _
      rw [if_pos h']

/-- Witness for the amended claim C1 at a concrete out-of-range input. -/
theorem ssdfs_mem_ops_range_check_debug_only_witness :
    ssdfs_memcpy true [5] 0 1 [5] 0 1 2 = ((-34 : Int), [5]) :=
  ((ssdfs_mem_ops_range_check_debug_only [5] [5] 0 1 0 1 2 3
      (by decide) (by decide)).1 (Or.inl (by decide))).1

/-- A memory page as manipulated by the wrappers: the kernel reference
count (`page_ref_count`), the `PageLocked` flag, and whether the
allocation zero-filled it (`__GFP_ZERO`). A page whose reference count has
reached 0 has been returned to the allocator. -/
structure SsdfsPage where
  refcount : Nat
  locked : Bool
  zeroed : Bool
deriving DecidableEq, Repr

/-- The leak-accounting counters (`CONFIG_SSDFS_MEMORY_LEAKS_ACCOUNTING`
enabled): `ssdfs_allocated_pages`, `ssdfs_locked_pages`,
`ssdfs_memory_leaks`, and one subsystem-tagged page counter
(`ssdfs_<name>_page_leaks`) standing for the per-subsystem family. -/
structure MemState where
  allocated_pages : Int
  locked_pages : Int
  memory_leaks : Int
  sub_page_leaks : Int
deriving DecidableEq, Repr

/-- An all-zero counter state (module load time). -/
def st0 : MemState := { allocated_pages := 0, locked_pages := 0,
                        memory_leaks := 0, sub_page_leaks := 0 }

/-- Kernel `get_page`: take one more reference. -/
def get_page (p : SsdfsPage) : SsdfsPage := { p with refcount := p.refcount + 1 }

/-- Embedding of `ssdfs_get_page` (ssdfs_inline.h:148): `get_page` plus a
debug-only print. -/
def ssdfs_get_page (p : SsdfsPage) : SsdfsPage := get_page p

/-- Kernel `put_page`: drop one reference; when the count reaches 0 the
memory returns to the allocator. -/
def put_page (p : SsdfsPage) : SsdfsPage := { p with refcount := p.refcount - 1 }

/-- Kernel `__free_pages(page, 0)` (`put_page_testzero`): drop one
reference and release the memory when the count reaches 0. -/
def free_pages_order0 (p : SsdfsPage) : SsdfsPage :=
  { p with refcount := p.refcount - 1 }

/-- Embedding of `ssdfs_put_page` (ssdfs_inline.h:159): `put_page`, then a
diagnostic warning when the resulting count is below 1. Returns the page
and whether a warning was emitted. -/
def ssdfs_put_page (p : SsdfsPage) : SsdfsPage × Bool :=
  let p2 := put_page p
  (p2, decide (p2.refcount < 1))

/-- Embedding of `ssdfs_alloc_page` (ssdfs_inline.h:238). `allocOk` models
whether `alloc_page(gfp_mask)` succeeds; `gfp_zero` models `__GFP_ZERO`
being part of the mask. On success the fresh page (allocator reference
count 1) gets a second reference via `ssdfs_get_page` and
`ssdfs_allocated_pages` is incremented; on failure `-ENOMEM` is returned
and no counter is touched. -/
def ssdfs_alloc_page (allocOk gfp_zero : Bool) (st : MemState) :
    Except Int SsdfsPage × MemState :=
  if allocOk then
    let page : SsdfsPage := { refcount := 1, locked := false, zeroed := gfp_zero }
    let page := ssdfs_get_page page
    (Except.ok page, { st with allocated_pages := st.allocated_pages + 1 })
  else
    (Except.error (-12), st)

/-- Embedding of the subsystem-tagged `ssdfs_<name>_alloc_page`
(SSDFS_MEMORY_LEAKS_CHECKER_FNS, ssdfs_inline.h:490): on success it
additionally increments the subsystem page counter. -/
def ssdfs_sub_alloc_page (allocOk gfp_zero : Bool) (st : MemState) :
    Except Int SsdfsPage × MemState :=
  match ssdfs_alloc_page allocOk gfp_zero st with
  | (Except.ok page, st2) =>
      (Except.ok page, { st2 with sub_page_leaks := st2.sub_page_leaks + 1 })
  | (Except.error e, st2) => (Except.error e, st2)

/-- Embedding of `ssdfs_free_page` (ssdfs_inline.h:327). A `none` argument
models a NULL pointer. The function is total (it contains no `BUG_ON`):
it warns about a still-locked page, calls `ssdfs_put_page`, warns when the
remaining count is not exactly 1, decrements `ssdfs_allocated_pages`
unconditionally, and finally calls `__free_pages` (one more reference
drop, freeing the memory only if the count reaches 0). Returns the page,
the counter state, and whether any diagnostic warning was emitted. -/
def ssdfs_free_page (p? : Option SsdfsPage) (st : MemState) :
    Option SsdfsPage × MemState × Bool :=
  match p? with
  | none => (none, st, false)
  | some p =>
      let w1 := p.locked
      let (p2, w2) := ssdfs_put_page p
      let w3 := decide (p2.refcount = 0 ∨ p2.refcount > 1)
      let st2 := { st with allocated_pages := st.allocated_pages - 1 }
      let p3 := free_pages_order0 p2
      (some p3, st2, w1 || w2 || w3)

/-- Embedding of `ssdfs_kfree` (ssdfs_inline.h:130): NULL is ignored;
otherwise the leak counter is decremented and `kfree` runs. The returned
flag records whether `kfree` was called. -/
def ssdfs_kfree (kaddr : Option Nat) (st : MemState) : MemState × Bool :=
  match kaddr with
  | some _ => ({ st with memory_leaks := st.memory_leaks - 1 }, true)
  | none => (st, false)

/-- Embedding of `ssdfs_kvfree` (ssdfs_inline.h:139): same shape as
`ssdfs_kfree` with `kvfree` underneath. -/
def ssdfs_kvfree (kaddr : Option Nat) (st : MemState) : MemState × Bool :=
  match kaddr with
  | some _ => ({ st with memory_leaks := st.memory_leaks - 1 }, true)
  | none => (st, false)

/-- The kernel `pagevec` used by `ssdfs_add_pagevec_page`: a fixed-capacity
(`PAGEVEC_SIZE`) array of page pointers, of which the first `nr` slots are
in use; a slot may hold NULL (`none`). `pages` lists exactly the `nr`
occupied slots. -/
structure Pagevec where
  pages : List (Option SsdfsPage)
deriving DecidableEq, Repr

/-- Kernel `PAGEVEC_SIZE`. -/
def PAGEVEC_SIZE : Nat := 15

/-- Kernel `pagevec_count`. -/
def pagevec_count (pv : Pagevec) : Nat := pv.pages.length

/-- Kernel `pagevec_space`. -/
def pagevec_space (pv : Pagevec) : Nat := PAGEVEC_SIZE - pagevec_count pv

/-- Kernel `pagevec_add`: append a page to the next free slot. -/
def pagevec_add (pv : Pagevec) (p : SsdfsPage) : Pagevec :=
  { pages := pv.pages ++ [some p] }

/-- Embedding of `ssdfs_add_pagevec_page` (ssdfs_inline.h:293): fail with
`-E2BIG` if the pagevec has no space, else allocate a zeroed page
(`GFP_KERNEL | __GFP_ZERO`) — failing with `-ENOMEM` if the allocator
fails — and add it to the pagevec. -/
def ssdfs_add_pagevec_page (allocOk : Bool) (pv : Pagevec) (st : MemState) :
    Except Int SsdfsPage × Pagevec × MemState :=
  if pagevec_space pv = 0 then (Except.error (-7), pv, st)
  else
    match ssdfs_alloc_page allocOk true st with
    | (Except.error e, st2) => (Except.error e, pv, st2)
    | (Except.ok page, st2) => (Except.ok page, pagevec_add pv page, st2)

/-- Embedding of `ssdfs_pagevec_release` (ssdfs_inline.h:370): NULL pagevec
returns immediately; otherwise every non-NULL slot among the first
`pagevec_count` is freed via `ssdfs_free_page` (NULL slots are skipped by
the `continue`), slots are nulled, and `pagevec_reinit` resets the count. -/
def ssdfs_pagevec_release (pv? : Option Pagevec) (st : MemState) :
    Option Pagevec × MemState :=
  match pv? with
  | none => (none, st)
  | some pv =>
      let st2 := pv.pages.foldl (fun acc slot =>
        match slot with
        | none => acc
        | some p => (ssdfs_free_page (some p) acc).2.1) st
      (some { pages := [] }, st2)

/-- Modelled from the spec: the bodies of the `ssdfs_page_vector` API live
in fs/ssdfs/page_vector.c, which is not among the provided sources; only
the declarations (page_vector.h:22-43) and spec §4.4 describe them. The
vector holds `count` (current occupancy), `capacity` (fixed at creation)
and a slot array of page handles. -/
structure ssdfs_page_vector where
  count : Nat
  capacity : Nat
  pages : List (Option SsdfsPage)
deriving DecidableEq, Repr

/-- Modelled from the spec (§4.4 `create`): a fresh vector with `count = 0`
and `capacity` empty slots. -/
def ssdfs_page_vector_create (capacity : Nat) : ssdfs_page_vector :=
  { count := 0, capacity := capacity, pages := List.replicate capacity none }

/-- Modelled from the spec (§4.4 `space`): `capacity − count`. -/
def ssdfs_page_vector_space (v : ssdfs_page_vector) : Nat := v.capacity - v.count

/-- Modelled from the spec (§4.4 `add`): requires `count < capacity`;
takes ownership of the handle, placing it at slot `count`, then increments
`count`; fails with `CapacityExceeded` (`-E2BIG`, the code the in-src
pagevec analogue `ssdfs_add_pagevec_page` uses for a full vector) when
full, leaving the vector unchanged and ownership of the handle with the
caller — in this functional embedding a failing call returns only the
error, so the caller's vector value and handle are untouched. -/
def ssdfs_page_vector_add (v : ssdfs_page_vector) (p : SsdfsPage) :
    Except Int ssdfs_page_vector :=
  if ssdfs_page_vector_space v = 0 then Except.error (-7)
  else Except.ok { v with count := v.count + 1,
                          pages := v.pages.set v.count (some p) }

/-- A sequence of `add` calls, keeping the previous vector whenever an
individual call fails. -/
def ssdfs_page_vector_addMany (v : ssdfs_page_vector) (ps : List SsdfsPage) :
    ssdfs_page_vector :=
  ps.foldl (fun acc p =>
    match ssdfs_page_vector_add acc p with
    | Except.ok v2 => v2
    | Except.error _ => acc) v

/-- Any `add` sequence keeps `count ≤ capacity` and never changes the
capacity. -/
theorem ssdfs_page_vector_addMany_le (v : ssdfs_page_vector)
    (ps : List SsdfsPage) (h : v.count ≤ v.capacity) :
    (ssdfs_page_vector_addMany v ps).count
      ≤ (ssdfs_page_vector_addMany v ps).capacity
    ∧ (ssdfs_page_vector_addMany v ps).capacity = v.capacity := by
  induction ps generalizing v with
  | nil => exact ⟨h, rfl⟩
  | cons hd tl ih =>
    show (ssdfs_page_vector_addMany _ tl).count ≤ _ ∧ _
    by_cases hfull : ssdfs_page_vector_space v = 0
    · simpa [ssdfs_page_vector_addMany, ssdfs_page_vector_add, hfull]
        using ih v h
    · have hlt : v.count < v.capacity := by
        unfold ssdfs_page_vector_space at hfull; omega
      simpa [ssdfs_page_vector_addMany, ssdfs_page_vector_add, hfull]
        using ih { v with count := v.count + 1,
                          pages := v.pages.set v.count (some hd) } (by simp; omega)

/-- Claim C2: for a vector created with capacity `C`, any sequence of
(successful) `add` calls keeps `count ≤ C`, and calling `add` on a full
vector (`count = capacity`) fails with `-E2BIG`; the failing call returns
only the error, so the vector — in particular `count` — is unchanged and
the handle stays with the caller. -/
theorem ssdfs_page_vector_capacity_invariant (C : Nat) (ps : List SsdfsPage) :
    (ssdfs_page_vector_addMany (ssdfs_page_vector_create C) ps).count ≤ C
    ∧ ∀ (v : ssdfs_page_vector) (p : SsdfsPage), v.count = v.capacity →
        ssdfs_page_vector_add v p = Except.error (-7) := by
  constructor
  · have h := ssdfs_page_vector_addMany_le (ssdfs_page_vector_create C) ps
      (by simp [ssdfs_page_vector_create])
    have hcap : (ssdfs_page_vector_addMany (ssdfs_page_vector_create C) ps).capacity
        = C := by simpa [ssdfs_page_vector_create] using h.2
    omega
  · intro v p h
    simp [ssdfs_page_vector_add, ssdfs_page_vector_space, h]

/-- Witness for claim C2 at capacity 1: one `add` fills the vector and an
`add` on the full vector fails with `-E2BIG`. -/
theorem ssdfs_page_vector_capacity_invariant_witness :
    (ssdfs_page_vector_addMany (ssdfs_page_vector_create 1)
        [{ refcount := 2, locked := false, zeroed := true }]).count ≤ 1
    ∧ ssdfs_page_vector_add
        { count := 1, capacity := 1,
          pages := [some { refcount := 2, locked := false, zeroed := true }] }
        { refcount := 2, locked := false, zeroed := true }
        = Except.error (-7) :=
  ⟨(ssdfs_page_vector_capacity_invariant 1
      [{ refcount := 2, locked := false, zeroed := true }]).1,
   (ssdfs_page_vector_capacity_invariant 1 []).2 _ _ rfl⟩

/-- Claim C3: whenever `ssdfs_add_pagevec_page` fails, the counters and
the pagevec are exactly as before the call (so no acquired page is left
outside the vector and the outstanding-pages counter shows no net
increase) and the error is one of `-E2BIG` (vector full) and `-ENOMEM`
(allocation failed); on success the new page sits inside the pagevec. -/
theorem ssdfs_add_pagevec_page_no_orphan (allocOk : Bool) (pv : Pagevec)
    (st : MemState) :
    (∀ e, (ssdfs_add_pagevec_page allocOk pv st).1 = Except.error e →
        (ssdfs_add_pagevec_page allocOk pv st).2.2 = st
        ∧ (ssdfs_add_pagevec_page allocOk pv st).2.1 = pv
        ∧ (e = -7 ∨ e = -12))
    ∧ (∀ p, (ssdfs_add_pagevec_page allocOk pv st).1 = Except.ok p →
        some p ∈ (ssdfs_add_pagevec_page allocOk pv st).2.1.pages
        ∧ (ssdfs_add_pagevec_page allocOk pv st).2.2.allocated_pages
            = st.allocated_pages + 1) := by
  by_cases hfull : pagevec_space pv = 0
  · constructor
    · intro e he
      simp [ssdfs_add_pagevec_page, hfull] at he ⊢
      omega
    · intro p hp
      simp [ssdfs_add_pagevec_page, hfull] at hp
  · cases allocOk
    · constructor
      · intro e he
        simp [ssdfs_add_pagevec_page, hfull, ssdfs_alloc_page] at he ⊢
        omega
      · intro p hp
        simp [ssdfs_add_pagevec_page, hfull, ssdfs_alloc_page] at hp
    · constructor
      · intro e he
        simp [ssdfs_add_pagevec_page, hfull, ssdfs_alloc_page] at he
      · intro p hp
        simp [ssdfs_add_pagevec_page, hfull, ssdfs_alloc_page,
              ssdfs_get_page, get_page] at hp
        simp [ssdfs_add_pagevec_page, hfull, ssdfs_alloc_page,
              ssdfs_get_page, get_page, pagevec_add, ← hp]

/-- Witness for claim C3: adding to a full pagevec fails with `-E2BIG`
and leaves the pagevec and the counters untouched. -/
theorem ssdfs_add_pagevec_page_no_orphan_witness :
    (ssdfs_add_pagevec_page true { pages := List.replicate 15 none } st0).2.2 = st0
    ∧ (ssdfs_add_pagevec_page true { pages := List.replicate 15 none } st0).2.1
        = { pages := List.replicate 15 none }
    ∧ ((-7 : Int) = -7 ∨ (-7 : Int) = -12) :=
  (ssdfs_add_pagevec_page_no_orphan true { pages := List.replicate 15 none } st0).1
    (-7) rfl

/-- Claim C4, counterexample: on success `ssdfs_alloc_page` calls
`alloc_page` (allocator reference count 1) and then `ssdfs_get_page`
(ssdfs_inline.h:249), so the returned page's reference count is 2, not 1
as the claim states. -/
theorem ssdfs_alloc_page_refcount_is_two :
    (ssdfs_alloc_page true true st0).1
      = Except.ok { refcount := 2, locked := false, zeroed := true }
    ∧ (2 : Nat) ≠ 1 :=
  ⟨rfl, by decide⟩

/-- Claim C4 (amended): on success `ssdfs_alloc_page` returns a page that
is zero-filled exactly when the gfp mask includes `__GFP_ZERO`, unlocked,
with reference count exactly 2 (the allocator's reference plus the one
taken by `ssdfs_get_page`), and increments `ssdfs_allocated_pages`; the
subsystem-tagged variant additionally increments the subsystem page
counter; on allocator failure both return `-ENOMEM` and no counter is
touched. -/
theorem ssdfs_alloc_page_spec (allocOk z : Bool) (st : MemState) :
    (allocOk = true →
      ssdfs_alloc_page allocOk z st
        = (Except.ok { refcount := 2, locked := false, zeroed := z },
           { st with allocated_pages := st.allocated_pages + 1 })
      ∧ ssdfs_sub_alloc_page allocOk z st
        = (Except.ok { refcount := 2, locked := false, zeroed := z },
           { st with allocated_pages := st.allocated_pages + 1,
                     sub_page_leaks := st.sub_page_leaks + 1 }))
    ∧ (allocOk = false →
      ssdfs_alloc_page allocOk z st = (Except.error (-12), st)
      ∧ ssdfs_sub_alloc_page allocOk z st = (Except.error (-12), st)) := by
  cases allocOk <;>
    simp [ssdfs_alloc_page, ssdfs_sub_alloc_page, ssdfs_get_page, get_page]

/-- Witness for the amended claim C4 at a successful allocation. -/
theorem ssdfs_alloc_page_spec_witness :
    ssdfs_alloc_page true true st0
      = (Except.ok { refcount := 2, locked := false, zeroed := true },
         { st0 with allocated_pages := st0.allocated_pages + 1 }) :=
  ((ssdfs_alloc_page_spec true true st0).1 rfl).1

/-- Claim C5, counterexample: `ssdfs_free_page` on a page holding extra
references (kernel reference count 3, i.e. one reference beyond the
wrapper's two; the claim's "reference count not exactly 1" precondition
holds) does warn, never aborts, and decrements `ssdfs_allocated_pages`,
but it does NOT free the page: `put_page` plus `__free_pages` only drop
the wrapper's two references, leaving the count at 1, so the memory is
not returned to the allocator as the claim asserts. -/
theorem ssdfs_free_page_extra_ref_not_freed :
    (3 : Nat) ≠ 1 ∧ (3 : Nat) ≠ 2
    ∧ ssdfs_free_page (some { refcount := 3, locked := false, zeroed := false }) st0
        = (some { refcount := 1, locked := false, zeroed := false },
           { st0 with allocated_pages := -1 }, true)
    ∧ ({ refcount := 1, locked := false, zeroed := false } : SsdfsPage).refcount ≠ 0 := by
  refine ⟨by decide, by decide, rfl, by decide⟩

/-- Claim C5 (amended): `ssdfs_free_page` on a locked page, or on one
whose reference count differs from the expected 2 (the allocator's
reference plus the wrapper's), emits a diagnostic warning and never
crashes or aborts (the function is total and contains no `BUG_ON`); it
always decrements `ssdfs_allocated_pages` and drops exactly the two
wrapper-held references, so the memory is returned to the allocator
(count 0) precisely when no further references remain. -/
theorem ssdfs_free_page_spec (p : SsdfsPage) (st : MemState) :
    (ssdfs_free_page (some p) st).2.1
      = { st with allocated_pages := st.allocated_pages - 1 }
    ∧ (ssdfs_free_page (some p) st).1 = some { p with refcount := p.refcount - 2 }
    ∧ (p.locked = true ∨ p.refcount ≠ 2 →
        (ssdfs_free_page (some p) st).2.2 = true)
    ∧ (p.refcount - 2 = 0 ↔ p.refcount ≤ 2) := by
  have h2 : p.refcount - 1 - 1 = p.refcount - 2 := by omega
  refine ⟨?_, ?_, ?_, by omega⟩
  · simp [ssdfs_free_page, ssdfs_put_page, put_page, free_pages_order0]
  · simp [ssdfs_free_page, ssdfs_put_page, put_page, free_pages_order0, h2]
  · intro h
    simp [ssdfs_free_page, ssdfs_put_page, put_page, free_pages_order0]
    rcases h with h | h
    · exact Or.inl (Or.inl h)
    · right; omega

/-- Witness for the amended claim C5: freeing a locked page warns. -/
theorem ssdfs_free_page_spec_witness :
    (ssdfs_free_page (some { refcount := 2, locked := true, zeroed := false }) st0).2.2
      = true :=
  (ssdfs_free_page_spec { refcount := 2, locked := true, zeroed := false } st0).2.2.1
    (Or.inl rfl)

/-- The release loop of `ssdfs_pagevec_release` frees exactly the non-NULL
slots: the outstanding-pages counter drops by their number and nothing
else in the counter state changes. -/
theorem pagevec_release_fold (l : List (Option SsdfsPage)) (st : MemState) :
    l.foldl (fun acc slot =>
      match slot with
      | none => acc
      | some p => (ssdfs_free_page (some p) acc).2.1) st
    = { st with allocated_pages :=
          st.allocated_pages - (l.filterMap id).length } := by
  induction l generalizing st with
  | nil => simp
  | cons hd tl ih =>
    cases hd with
    | none =>
      simp only [List.foldl_cons, List.filterMap_cons_none, id]
      exact ih st
    | some p =>
      simp only [List.foldl_cons, List.filterMap_cons_some, List.length_cons, id]
      rw [ih]
      simp [ssdfs_free_page, ssdfs_put_page, put_page, free_pages_order0]
      ring

/-- Claim C10: every free operation is null-tolerant: `ssdfs_kfree`,
`ssdfs_kvfree` and `ssdfs_free_page` on NULL return with no memory freed
and no counter changed, and `ssdfs_pagevec_release` on a NULL pagevec
returns immediately, while NULL slots among its pages are skipped: the
outstanding-pages counter drops only by the number of non-NULL slots. -/
theorem ssdfs_free_ops_null_tolerant (st : MemState) (pv : Pagevec) :
    ssdfs_kfree none st = (st, false)
    ∧ ssdfs_kvfree none st = (st, false)
    ∧ ssdfs_free_page none st = (none, st, false)
    ∧ ssdfs_pagevec_release none st = (none, st)
    ∧ (ssdfs_pagevec_release (some pv) st).2
        = { st with allocated_pages :=
              st.allocated_pages - (pv.pages.filterMap id).length } := by
  refine ⟨rfl, rfl, rfl, rfl, ?_⟩
  simp [ssdfs_pagevec_release, pagevec_release_fold]

/-- The CRC-32 polynomial (bit-reversed form) used by the kernel
`crc32_le`. -/
def CRCPOLY : Nat := 0xEDB88320

/-- One bit step of the kernel `crc32_le`: shift right, conditionally
folding in the polynomial when the dropped bit was set. -/
def crcbit (s : Nat) : Nat :=
  (s >>> 1) ^^^ (if s % 2 = 1 then CRCPOLY else 0)

/-- One byte step of the kernel `crc32_le`: fold the byte into the low
bits, then run eight bit steps. -/
def crcByte (s b : Nat) : Nat := crcbit^[8] (s ^^^ b)

/-- The kernel `crc32(seed, data, len)` over a byte list. -/
def crc32_le_update (s : Nat) (data : List Nat) : Nat := data.foldl crcByte s

/-- Embedding of `ssdfs_crc32_le` (ssdfs_inline.h:636):
`cpu_to_le32(crc32(~0, data, len))`; the endianness conversion is the
identity in this model, and `len` selects the leading bytes of the
buffer. -/
def ssdfs_crc32_le (data : List Nat) (len : Nat) : Nat :=
  crc32_le_update 4294967295 (data.take len)

theorem crcbit_lt {s : Nat} (h : s < 4294967296) : crcbit s < 4294967296 := by
  have e : (2 : Nat) ^ 32 = 4294967296 := by norm_num
  have h1 : s >>> 1 < 2 ^ 32 := by rw [Nat.shiftRight_one, e]; omega
  unfold crcbit
  split
  · rw [← e]; exact Nat.xor_lt_two_pow h1 (by rw [e]; norm_num [CRCPOLY])
  · rw [← e]; exact Nat.xor_lt_two_pow h1 (by rw [e]; norm_num)

/-- The high bit of a bit step records the parity of its argument,
because the polynomial has its bit 31 set while the shifted state does
not. -/
theorem crcbit_high_iff {c : Nat} (hc : c < 4294967296) :
    2147483648 ≤ crcbit c ↔ c % 2 = 1 := by
  have hdiv : c >>> 1 = c / 2 := Nat.shiftRight_one c
  unfold crcbit
  rcases Nat.mod_two_eq_zero_or_one c with h | h
  · simp only [h]
    norm_num
    rw [hdiv]
    omega
  · simp only [h]
    norm_num
    have hlow : c >>> 1 < 2147483648 := by rw [hdiv]; omega
    have h1 : (c >>> 1).testBit 31 = false := by
      apply Nat.testBit_lt_two_pow
      norm_num
      exact hlow
    have h2 : CRCPOLY.testBit 31 = true := by decide
    have h3 : ((c >>> 1) ^^^ CRCPOLY).testBit 31 = true := by
      rw [Nat.testBit_xor, h1, h2]
      rfl
    have h4 := Nat.testBit_implies_ge h3
    calc (2147483648 : Nat) = 2 ^ 31 := by norm_num
    _ ≤ _ := h4

/-- A bit step is injective on 32-bit states. -/
theorem crcbit_inj {a b : Nat} (ha : a < 4294967296) (hb : b < 4294967296)
    (h : crcbit a = crcbit b) : a = b := by
  have hpar : a % 2 = b % 2 := by
    have h1 := crcbit_high_iff ha
    have h2 := crcbit_high_iff hb
    rw [h] at h1
    omega
  have hsh : a / 2 = b / 2 := by
    have h' := h
    unfold crcbit at h'
    rcases Nat.mod_two_eq_zero_or_one a with h1 | h1 <;>
      rcases Nat.mod_two_eq_zero_or_one b with h2 | h2
    · simp only [h1, h2] at h'
      norm_num at h'
      rw [Nat.shiftRight_one, Nat.shiftRight_one] at h'
      exact h'
    · omega
    · omega
    · simp only [h1, h2] at h'
      norm_num at h'
      rw [Nat.shiftRight_one, Nat.shiftRight_one] at h'
      exact h'
  omega

theorem crcbit_iter_lt (k : Nat) {s : Nat} (h : s < 4294967296) :
    crcbit^[k] s < 4294967296 := by
  induction k generalizing s with
  | zero => simpa using h
  | succ n ih =>
    rw [Function.iterate_succ_apply]
    exact ih (crcbit_lt h)

theorem crcbit_iter_inj (k : Nat) {x y : Nat} (hx : x < 4294967296)
    (hy : y < 4294967296) (h : crcbit^[k] x = crcbit^[k] y) : x = y := by
  induction k generalizing x y with
  | zero => simpa using h
  | succ n ih =>
    rw [Function.iterate_succ_apply, Function.iterate_succ_apply] at h
    exact crcbit_inj hx hy (ih (crcbit_lt hx) (crcbit_lt hy) h)

theorem nat_xor_lt {a b : Nat} (ha : a < 4294967296) (hb : b < 4294967296) :
    a ^^^ b < 4294967296 := by
  have e : (2 : Nat) ^ 32 = 4294967296 := by norm_num
  rw [← e] at ha hb ⊢
  exact Nat.xor_lt_two_pow ha hb

theorem crcByte_lt {s b : Nat} (hs : s < 4294967296) (hb : b < 4294967296) :
    crcByte s b < 4294967296 :=
  crcbit_iter_lt 8 (nat_xor_lt hs hb)

/-- A byte step is injective in the running state. -/
theorem crcByte_state_inj {s1 s2 b : Nat} (h1 : s1 < 4294967296)
    (h2 : s2 < 4294967296) (hb : b < 4294967296)
    (h : crcByte s1 b = crcByte s2 b) : s1 = s2 :=
  Nat.xor_left_injective
    (crcbit_iter_inj 8 (nat_xor_lt h1 hb) (nat_xor_lt h2 hb) h)

/-- A byte step is injective in the byte being folded in. -/
theorem crcByte_byte_inj {s b1 b2 : Nat} (hs : s < 4294967296)
    (hb1 : b1 < 4294967296) (hb2 : b2 < 4294967296)
    (h : crcByte s b1 = crcByte s b2) : b1 = b2 :=
  Nat.xor_right_injective
    (crcbit_iter_inj 8 (nat_xor_lt hs hb1) (nat_xor_lt hs hb2) h)

theorem crc32_le_update_lt {s : Nat} (data : List Nat) (hs : s < 4294967296)
    (hdata : ∀ x ∈ data, x < 4294967296) :
    crc32_le_update s data < 4294967296 := by
  induction data generalizing s with
  | nil => simpa [crc32_le_update] using hs
  | cons hd tl ih =>
    have hhd : hd < 4294967296 := hdata hd (by simp)
    have htl : ∀ x ∈ tl, x < 4294967296 := fun x hx => hdata x (by simp [hx])
    simpa [crc32_le_update] using ih (crcByte_lt hs hhd) htl

/-- Feeding the same byte list to two distinct 32-bit states keeps the
results distinct. -/
theorem crc32_le_update_state_inj {s1 s2 : Nat} (data : List Nat)
    (h1 : s1 < 4294967296) (h2 : s2 < 4294967296)
    (hdata : ∀ x ∈ data, x < 4294967296) (hne : s1 ≠ s2) :
    crc32_le_update s1 data ≠ crc32_le_update s2 data := by
  induction data generalizing s1 s2 with
  | nil => simpa [crc32_le_update] using hne
  | cons hd tl ih =>
    have hhd : hd < 4294967296 := hdata hd (by simp)
    have htl : ∀ x ∈ tl, x < 4294967296 := fun x hx => hdata x (by simp [hx])
    have hstep : crcByte s1 hd ≠ crcByte s2 hd := fun hc =>
      hne (crcByte_state_inj h1 h2 hhd hc)
    simpa [crc32_le_update] using
      ih (crcByte_lt h1 hhd) (crcByte_lt h2 hhd) htl hstep

/-- Changing exactly one byte of the input changes the CRC-32. -/
theorem crc32_single_byte_flip {pre post : List Nat} {b1 b2 : Nat}
    (hpre : ∀ x ∈ pre, x < 4294967296) (hpost : ∀ x ∈ post, x < 4294967296)
    (hb1 : b1 < 4294967296) (hb2 : b2 < 4294967296) (hne : b1 ≠ b2) :
    crc32_le_update 4294967295 (pre ++ b1 :: post)
      ≠ crc32_le_update 4294967295 (pre ++ b2 :: post) := by
  have hs : crc32_le_update 4294967295 pre < 4294967296 :=
    crc32_le_update_lt pre (by norm_num) hpre
  have hstep : crcByte (crc32_le_update 4294967295 pre) b1
      ≠ crcByte (crc32_le_update 4294967295 pre) b2 := fun hc =>
    hne (crcByte_byte_inj hs hb1 hb2 hc)
  have := crc32_le_update_state_inj post (crcByte_lt hs hb1)
    (crcByte_lt hs hb2) hpost hstep
  simpa [crc32_le_update, List.foldl_append] using this

/-- The on-disk checksum record `struct ssdfs_metadata_check`:
`{bytes: le16, flags: le16, csum: le32}` (spec §6); fields carried as
their numeric values. -/
structure ssdfs_metadata_check where
  bytes : Nat
  flags : Nat
  csum : Nat
deriving DecidableEq, Repr

/-- Modelled from the spec: the flag value `SSDFS_CRC32` selecting the one
supported checksum algorithm is declared in the driver's common headers,
which are not among the provided sources; any fixed nonzero bit serves.
The claims depend only on `flags &&& SSDFS_CRC32` being zero or not. -/
def SSDFS_CRC32 : Nat := 1

/-- Embedding of `ssdfs_calculate_csum` (ssdfs_inline.h:642): reject a
declared length beyond the buffer with `-EINVAL`; reject flags without
the CRC32 bit, also with `-EINVAL`; otherwise store the CRC-32 over the
declared length into the record. In C the record is modified in place
only on the success path, so an error leaves it untouched; here success
returns the updated record. -/
def ssdfs_calculate_csum (check : ssdfs_metadata_check) (buf : List Nat)
    (buf_size : Nat) : Except Int ssdfs_metadata_check :=
  if check.bytes > buf_size then Except.error (-22)
  else if check.flags &&& SSDFS_CRC32 ≠ 0 then
    Except.ok { check with csum := ssdfs_crc32_le buf check.bytes }
  else Except.error (-22)

/-- Embedding of `is_csum_valid` (ssdfs_inline.h:672): save the stored
checksum, recompute via `ssdfs_calculate_csum` (returning `false` if that
fails), restore the stored value and compare. Returns the boolean result
and the record as it stands after the call. -/
def is_csum_valid (check : ssdfs_metadata_check) (buf : List Nat)
    (buf_size : Nat) : Bool × ssdfs_metadata_check :=
  let old_csum := check.csum
  match ssdfs_calculate_csum check buf buf_size with
  | Except.error _ => (false, check)
  | Except.ok check2 =>
      let calc_csum := check2.csum
      (decide (old_csum = calc_csum), { check2 with csum := old_csum })

/-- Claim C7: `is_csum_valid` always returns a boolean — on any internal
computation error (declared length beyond the buffer, or flags not
selecting CRC32) it returns `false` — and in every case the record after
the call equals the record before it (the stored checksum is restored on
success and never touched on failure). -/
theorem is_csum_valid_total_and_restores (check : ssdfs_metadata_check)
    (buf : List Nat) (buf_size : Nat) :
    (is_csum_valid check buf buf_size).2 = check
    ∧ (check.bytes > buf_size ∨ check.flags &&& SSDFS_CRC32 = 0 →
        (is_csum_valid check buf buf_size).1 = false) := by
  unfold is_csum_valid ssdfs_calculate_csum
  by_cases h1 : check.bytes > buf_size
  · simp [h1]
  · by_cases h2 : check.flags &&& SSDFS_CRC32 ≠ 0
    · simp [h1, h2]
    · simp [h1, h2]

/-- Witness for claim C7 at a record whose flags select no algorithm. -/
theorem is_csum_valid_total_and_restores_witness :
    (is_csum_valid { bytes := 0, flags := 0, csum := 0 } [] 0).2
      = { bytes := 0, flags := 0, csum := 0 }
    ∧ (is_csum_valid { bytes := 0, flags := 0, csum := 0 } [] 0).1 = false :=
  ⟨(is_csum_valid_total_and_restores { bytes := 0, flags := 0, csum := 0 } [] 0).1,
   (is_csum_valid_total_and_restores { bytes := 0, flags := 0, csum := 0 } [] 0).2
     (Or.inr rfl)⟩

/-- Claim C8, counterexample: the two failure conditions of
`ssdfs_calculate_csum` do NOT carry distinct error kinds: a declared
length beyond the buffer (4 > 3) and flags selecting no supported
algorithm (`flags = 0`) both return the same `-EINVAL` (ssdfs_inline.h:658
and :666); there is no separate `UnsupportedAlgorithm` code. -/
theorem ssdfs_calculate_csum_same_einval :
    ssdfs_calculate_csum { bytes := 4, flags := 1, csum := 0 } [1, 2, 3] 3
      = Except.error (-22)
    ∧ ssdfs_calculate_csum { bytes := 2, flags := 0, csum := 0 } [1, 2, 3] 3
      = Except.error (-22) :=
  ⟨rfl, rfl⟩

/-- Claim C8 (amended): `ssdfs_calculate_csum` fails with `-EINVAL` when
the declared length exceeds `buf_size`; it fails with the SAME `-EINVAL`
(not a distinct error kind) when the flags do not select the supported
CRC32 algorithm; on success it writes the CRC-32 over the declared length
into the record's checksum field; on either failure the record is
unmodified (the error paths return before the in-place store). -/
theorem ssdfs_calculate_csum_spec (check : ssdfs_metadata_check)
    (buf : List Nat) (buf_size : Nat) :
    (check.bytes > buf_size →
        ssdfs_calculate_csum check buf buf_size = Except.error (-22))
    ∧ (check.bytes ≤ buf_size → check.flags &&& SSDFS_CRC32 = 0 →
        ssdfs_calculate_csum check buf buf_size = Except.error (-22))
    ∧ (check.bytes ≤ buf_size → check.flags &&& SSDFS_CRC32 ≠ 0 →
        ssdfs_calculate_csum check buf buf_size
          = Except.ok { check with csum := ssdfs_crc32_le buf check.bytes }) := by
  unfold ssdfs_calculate_csum
  refine ⟨fun h => by rw [if_pos h], fun h hf => ?_, fun h hf => ?_⟩
  · rw [if_neg (by omega), if_neg (by simp [hf])]
  · rw [if_neg (by omega), if_pos hf]

/-- Witness for the amended claim C8 at its three branches. -/
theorem ssdfs_calculate_csum_spec_witness :
    ssdfs_calculate_csum { bytes := 4, flags := 1, csum := 0 } [1, 2, 3] 3
      = Except.error (-22)
    ∧ ssdfs_calculate_csum { bytes := 2, flags := 0, csum := 0 } [1, 2, 3] 3
      = Except.error (-22)
    ∧ ssdfs_calculate_csum { bytes := 2, flags := 1, csum := 0 } [1, 2, 3] 3
      = Except.ok { bytes := 2, flags := 1, csum := ssdfs_crc32_le [1, 2, 3] 2 } :=
  ⟨(ssdfs_calculate_csum_spec { bytes := 4, flags := 1, csum := 0 } [1, 2, 3] 3).1
      (by decide),
   (ssdfs_calculate_csum_spec { bytes := 2, flags := 0, csum := 0 } [1, 2, 3] 3).2.1
      (by decide) (by decide),
   (ssdfs_calculate_csum_spec { bytes := 2, flags := 1, csum := 0 } [1, 2, 3] 3).2.2
      (by decide) (by decide)⟩

/-- Claim C6: whenever `ssdfs_calculate_csum` succeeds on a record and a
byte buffer (of at least the passed size), `is_csum_valid` on the updated
record and the unmodified buffer returns `true`, and flipping any single
bit of any byte inside the covered range (the declared length) makes
`is_csum_valid` return `false`. -/
theorem checksum_roundtrip_and_flip_detect
    (check check2 : ssdfs_metadata_check) (buf : List Nat) (buf_size : Nat)
    (hok : ssdfs_calculate_csum check buf buf_size = Except.ok check2)
    (hbs : buf_size ≤ buf.length) (hbytes : ∀ x ∈ buf, x < 256) :
    (is_csum_valid check2 buf buf_size).1 = true
    ∧ ∀ i j, i < check.bytes → j < 8 →
        (is_csum_valid check2 (buf.set i (buf.getD i 0 ^^^ 2 ^ j)) buf_size).1
          = false := by
  have h1 : ¬ check.bytes > buf_size := by
    intro h
    unfold ssdfs_calculate_csum at hok
    rw [if_pos h] at hok
    exact absurd hok (by simp)
  have h2 : check.flags &&& SSDFS_CRC32 ≠ 0 := by
    intro h
    unfold ssdfs_calculate_csum at hok
    rw [if_neg h1, if_neg (by simp [h])] at hok
    exact absurd hok (by simp)
  have hc2 : check2 = { check with csum := ssdfs_crc32_le buf check.bytes } := by
    unfold ssdfs_calculate_csum at hok
    rw [if_neg h1, if_pos h2] at hok
    exact (Except.ok.inj hok).symm
  subst hc2
  constructor
  · unfold is_csum_valid ssdfs_calculate_csum
    simp [h1, h2]
  · intro i j hi hj
    have hiBuf : i < buf.length := by omega
    have hL : i < (buf.take check.bytes).length := by
      rw [List.length_take]; omega
    have hgetD : buf.getD i 0 = buf[i] := List.getD_eq_getElem buf 0 hiBuf
    have hvlt : buf.getD i 0 ^^^ 2 ^ j < 4294967296 := by
      have hb : buf.getD i 0 < 256 := by
        rw [hgetD]; exact hbytes _ (buf.getElem_mem hiBuf)
      have hjv : (2 : Nat) ^ j < 256 := by
        calc (2 : Nat) ^ j ≤ 2 ^ 7 := Nat.pow_le_pow_right (by norm_num) (by omega)
        _ < 256 := by norm_num
      have : buf.getD i 0 ^^^ 2 ^ j < 256 := by
        have e : (256 : Nat) = 2 ^ 8 := by norm_num
        rw [e] at hb hjv ⊢
        exact Nat.xor_lt_two_pow hb hjv
      omega
    have hneByte : buf.getD i 0 ^^^ 2 ^ j ≠ (buf.take check.bytes)[i] := by
      rw [List.getElem_take, ← hgetD]
      intro h
      have h0 : buf.getD i 0 ^^^ 2 ^ j = buf.getD i 0 ^^^ 0 := by simpa using h
      exact absurd (Nat.xor_right_injective h0) (by positivity)
    have hpre : ∀ x ∈ (buf.take check.bytes).take i, x < 4294967296 := by
      intro x hx
      have := hbytes x (List.take_subset _ _ (List.take_subset _ _ hx))
      omega
    have hpost : ∀ x ∈ (buf.take check.bytes).drop (i + 1), x < 4294967296 := by
      intro x hx
      have := hbytes x (List.take_subset _ _ (List.drop_subset _ _ hx))
      omega
    have hLi : (buf.take check.bytes)[i] < 4294967296 := by
      have := hbytes _ (List.take_subset _ _ ((buf.take check.bytes).getElem_mem hL))
      omega
    have hsplit1 : (buf.take check.bytes).set i (buf.getD i 0 ^^^ 2 ^ j)
        = (buf.take check.bytes).take i
          ++ (buf.getD i 0 ^^^ 2 ^ j) :: (buf.take check.bytes).drop (i + 1) := by
      rw [List.set_eq_take_append_cons_drop, if_pos hL]
    have hsplit2 : (buf.take check.bytes).take i
        ++ (buf.take check.bytes)[i] :: (buf.take check.bytes).drop (i + 1)
        = buf.take check.bytes := by
      rw [List.getElem_cons_drop]
      exact List.take_append_drop i (buf.take check.bytes)
    have hcrcne : ssdfs_crc32_le (buf.set i (buf.getD i 0 ^^^ 2 ^ j)) check.bytes
        ≠ ssdfs_crc32_le buf check.bytes := by
      unfold ssdfs_crc32_le
      rw [List.set_take, hsplit1]
      conv_rhs => rw [← hsplit2]
      exact crc32_single_byte_flip hpre hpost hvlt hLi hneByte
    have hcrcne2 : ssdfs_crc32_le (buf.set i (buf[i]?.getD 0 ^^^ 2 ^ j)) check.bytes
        ≠ ssdfs_crc32_le buf check.bytes := by
      have e : buf[i]?.getD 0 = buf.getD i 0 := by simp
      rw [e]; exact hcrcne
    unfold is_csum_valid ssdfs_calculate_csum
    simp [h1, h2]
    exact fun h => absurd h.symm hcrcne2

/-- Witness for claim C6: compute-then-verify on a one-byte buffer. -/
theorem checksum_roundtrip_and_flip_detect_witness :
    (is_csum_valid { bytes := 1, flags := 1, csum := ssdfs_crc32_le [0] 1 } [0] 1).1
      = true :=
  (checksum_roundtrip_and_flip_detect { bytes := 1, flags := 1, csum := 0 }
      { bytes := 1, flags := 1, csum := ssdfs_crc32_le [0] 1 } [0] 1 rfl
      (by decide) (by decide)).1

/-- The signature record `struct ssdfs_signature` as read by
`is_ssdfs_magic_valid`: the 32-bit common magic and the version's
major/minor bytes. -/
structure ssdfs_signature where
  common : Nat
  major : Nat
  minor : Nat
deriving DecidableEq, Repr

/-- Modelled from the spec: the fixed magic constant `SSDFS_SUPER_MAGIC`
is declared in the driver's common headers, which are not among the
provided sources; the claims depend only on it being one fixed value. -/
def SSDFS_SUPER_MAGIC : Nat := 0x53734466

/-- Modelled from the spec: the supported major revision (fixed value not
in the provided sources). -/
def SSDFS_MAJOR_REVISION : Nat := 1

/-- Modelled from the spec: the supported minor revision (fixed value not
in the provided sources). -/
def SSDFS_MINOR_REVISION : Nat := 15

/-- Embedding of `is_ssdfs_magic_valid` (ssdfs_inline.h:705). -/
def is_ssdfs_magic_valid (magic : ssdfs_signature) : Bool :=
  if magic.common ≠ SSDFS_SUPER_MAGIC then false
  else if magic.major > SSDFS_MAJOR_REVISION ∨ magic.minor > SSDFS_MINOR_REVISION
    then false
  else true

/-- Claim C9: `is_ssdfs_magic_valid` returns `true` exactly when the magic
field equals the supported magic value and both version fields are at most
the supported revisions; in every other case it returns `false` (the
function is total, so it never raises). -/
theorem is_ssdfs_magic_valid_iff (magic : ssdfs_signature) :
    is_ssdfs_magic_valid magic = true
      ↔ (magic.common = SSDFS_SUPER_MAGIC
         ∧ magic.major ≤ SSDFS_MAJOR_REVISION
         ∧ magic.minor ≤ SSDFS_MINOR_REVISION) := by
  unfold is_ssdfs_magic_valid
  by_cases h1 : magic.common = SSDFS_SUPER_MAGIC
  · simp [h1, not_or, Nat.not_lt]
  · simp [h1]
